import Mathlib

/-
Verification development for the python-zillow client library.

The repository under verification has four source files:
  zillow/__init__.py, zillow/api.py, zillow/url_utils.py, tests/test_neighborhood.py.
The modules zillow/error.py (ZillowError) and zillow/result_fields.py
(Place, Region and their set_data methods) are referenced throughout the
code but are not part of the available sources; where their behaviour is
needed it is modelled from the specification (doc comments on those
definitions start with "Modelled from the spec:").

Strings that travel on the wire (URLs, query strings, encoded parameter
values) are modelled at byte level as lists of natural numbers (each < 256
for genuine bytes), because Python's quote_plus / unquote_plus operate on
the utf-8 byte sequence.  Python exceptions are modelled by the Exc type
below; a facade phase returning Except Exc A models "raises e" via
Except.error e and a normal return via Except.ok.
-/

namespace Zillow

/-- A wire-level string: the list of its utf-8 bytes. -/
abbrev ByteStr := List Nat

/-- The utf-8 bytes of an ASCII Lean string, used to write concrete inputs. -/
def strBytes (s : String) : ByteStr := s.data.map Char.toNat

/-- The exceptions the library's code can raise.  Exc.zillow models the
library's ZillowError (error.py, not under src/) carrying its message
payload; the remaining constructors model the Python built-in exceptions
that the code can let escape: KeyError (mapping subscript with a missing
key), TypeError (subscripting or iterating None and similar), AttributeError
(calling .get on a non-mapping), NameError (referencing an unbound local)
and ValueError (raised explicitly in NeighborhoodApi.GetRegionChildren). -/
inductive Exc where
  | zillow (msg : String)
  | keyError (key : String)
  | typeError
  | attrError
  | nameError
  | valueError (msg : String)

/-- A value stored in a facade's request-parameter mapping before URL
encoding: a Python str, int, or None. -/
inductive PVal where
  | str (s : String)
  | int (n : Int)
  | noneVal

/-- The Python value of an optional string argument: some s is the str s,
Option.none is Python None. -/
def pvalOfOpt : Option String → PVal
  | some s => PVal.str s
  | Option.none => PVal.noneVal

/-- Python truthiness of an optional string argument: None and the empty
string are falsy, every other string is truthy. -/
def truthy : Option String → Bool
  | some s => !s.isEmpty
  | Option.none => false

/-- A facade's request-parameter mapping, in dict insertion order. -/
abbrev Params := List (String × PVal)

/-- The keys of a parameter-building phase's result; an error has no keys. -/
def paramKeys : Except Exc Params → List String
  | Except.ok ps => ps.map Prod.fst
  | Except.error _ => []

/-- Parameter-building phase of ValuationApi.GetSearchResults
(api.py lines 53-61): starts from the zws-id entry, requires address and
citystatezip to both be truthy (otherwise raises
ZillowError with message "Specify address and citystatezip." before any
request), and appends the rentzestimate entry only when the flag is true.
An Except.ok result means the GET request is then issued with exactly
these parameters. -/
def GetSearchResults_params (zws_id : String) (address citystatezip : Option String)
    (rentzestimate : Bool) : Except Exc Params :=
  if truthy address && truthy citystatezip then
    Except.ok ([("zws-id", PVal.str zws_id),
      ("address", pvalOfOpt address), ("citystatezip", pvalOfOpt citystatezip)]
      ++ if rentzestimate then [("rentzestimate", PVal.str "true")] else [])
  else
    Except.error (Exc.zillow "Specify address and citystatezip.")

/-- Parameter-building phase of ValuationApi.GetZEstimate (api.py lines
88-92): no validation; rentzestimate appended only when true. -/
def GetZEstimate_params (zws_id zpid : String) (rentzestimate : Bool) :
    Except Exc Params :=
  Except.ok ([("zws-id", PVal.str zws_id), ("zpid", PVal.str zpid)]
    ++ if rentzestimate then [("rentzestimate", PVal.str "true")] else [])

/-- Parameter-building phase of ValuationApi.GetDeepSearchResults (api.py
lines 126-133): the source performs NO validation of address or
citystatezip; both are placed in the mapping as given (None included) and
the request is always issued. -/
def GetDeepSearchResults_params (zws_id : String) (address citystatezip : Option String)
    (rentzestimate : Bool) : Except Exc Params :=
  Except.ok ([("zws-id", PVal.str zws_id),
    ("address", pvalOfOpt address), ("citystatezip", pvalOfOpt citystatezip)]
    ++ if rentzestimate then [("rentzestimate", PVal.str "true")] else [])

/-- Parameter-building phase of ValuationApi.GetDeepComps (api.py lines
165-170): no validation of count; the mapping always carries the given
count unchanged. -/
def GetDeepComps_params (zws_id zpid : String) (count : Int) (rentzestimate : Bool) :
    Except Exc Params :=
  Except.ok ([("zws-id", PVal.str zws_id), ("zpid", PVal.str zpid),
    ("count", PVal.int count)]
    ++ if rentzestimate then [("rentzestimate", PVal.str "true")] else [])

/-- Parameter-building phase of ValuationApi.GetComps (api.py lines
218-223): identical in shape to GetDeepComps_params. -/
def GetComps_params (zws_id zpid : String) (count : Int) (rentzestimate : Bool) :
    Except Exc Params :=
  Except.ok ([("zws-id", PVal.str zws_id), ("zpid", PVal.str zpid),
    ("count", PVal.int count)]
    ++ if rentzestimate then [("rentzestimate", PVal.str "true")] else [])

/-- Parameter-building phase of NeighborhoodApi.GetRegionChildren (api.py
lines 319-336).  kwargs is the keyword-argument mapping.  The source
computes len(set(kwargs.keys()) and the set holding region_id and state)
and raises the BUILT-IN ValueError (not ZillowError) unless that size is
exactly 1; otherwise it builds the parameters from kwarg_mappings in
insertion order (regionId, state, county, city, childtype), keeping an
entry only when the corresponding keyword was supplied, and finally adds
the zws-id entry. -/
def GetRegionChildren_params (zws_id : String) (kwargs : List (String × String)) :
    Except Exc Params :=
  let kwarg_mappings : List (String × String) :=
    [("regionId", "region_id"), ("state", "state"), ("county", "county"),
     ("city", "city"), ("childtype", "childtype")]
  if (["region_id", "state"].filter
        (fun k => (kwargs.map Prod.fst).contains k)).length ≠ 1 then
    Except.error (Exc.valueError
      "One keyword argument of 'region_id' or 'state' is required")
  else
    Except.ok ((kwarg_mappings.filterMap
      (fun m => (List.lookup m.2 kwargs).map (fun v => (m.1, PVal.str v))))
      ++ [("zws-id", PVal.str zws_id)])

/-- URL-level parameter mapping handed to url_utils: keys are byte strings,
a value is some bytes (a str, already utf-8) or Option.none (Python None). -/
abbrev QParams := List (ByteStr × Option ByteStr)

/-- Safe bytes of urllib.parse.quote_plus with safe set empty: ASCII
digits, letters, and the bytes of the characters underscore, dot, hyphen
and tilde stay unescaped. -/
def isSafeByte (b : Nat) : Bool :=
  (48 ≤ b && b ≤ 57) || (65 ≤ b && b ≤ 90) || (97 ≤ b && b ≤ 122)
    || b == 95 || b == 46 || b == 45 || b == 126

/-- Uppercase hexadecimal digit byte for a nibble (48 is the byte of the
digit zero, 55 + 10 = 65 is the byte of A). -/
def hexDigit (n : Nat) : Nat := if n < 10 then 48 + n else 55 + n

/-- quote_plus on one byte: safe bytes pass through, the space byte 32
becomes a plus byte 43, everything else becomes a percent byte 37 followed
by two uppercase hex digits. -/
def quoteByte (b : Nat) : ByteStr :=
  if isSafeByte b then [b]
  else if b = 32 then [43]
  else [37, hexDigit (b / 16), hexDigit (b % 16)]

/-- urllib.parse.quote_plus at byte level. -/
def quotePlus : ByteStr → ByteStr
  | [] => []
  | b :: rest => quoteByte b ++ quotePlus rest

/-- The value of a hexadecimal digit byte, Option.none for non-hex bytes. -/
def hexVal (c : Nat) : Option Nat :=
  if 48 ≤ c ∧ c ≤ 57 then some (c - 48)
  else if 65 ≤ c ∧ c ≤ 70 then some (c - 55)
  else if 97 ≤ c ∧ c ≤ 102 then some (c - 87)
  else Option.none

/-- urllib.parse.unquote_plus at byte level: a plus byte becomes a space,
a percent byte followed by two hex digits becomes the encoded byte, an
invalid percent escape is kept literally (as Python does), everything
else passes through. -/
def unquotePlus : ByteStr → ByteStr
  | [] => []
  | 43 :: rest => 32 :: unquotePlus rest
  | 37 :: h :: l :: rest =>
    match hexVal h, hexVal l with
    | some hv, some lv => (hv * 16 + lv) :: unquotePlus rest
    | _, _ => 37 :: unquotePlus (h :: l :: rest)
  | b :: rest => b :: unquotePlus rest

/-- Python dict assignment on an insertion-ordered association list: an
existing key keeps its position and gets the new value, a new key is
appended. -/
def dictSet (d : List (ByteStr × ByteStr)) (k v : ByteStr) :
    List (ByteStr × ByteStr) :=
  if d.any (fun kv => kv.1 == k) then
    d.map (fun kv => if kv.1 == k then (k, v) else kv)
  else d ++ [(k, v)]

/-- Python dict(pairs): insertion-ordered, last value wins per key. -/
def pyDict (ps : List (ByteStr × ByteStr)) : List (ByteStr × ByteStr) :=
  ps.foldl (fun d kv => dictSet d kv.1 kv.2) []

/-- Byte-level separator join, as in joining with a one-character
separator string. -/
def intercalateSep (sep : Nat) : List ByteStr → ByteStr
  | [] => []
  | [x] => x
  | x :: y :: rest => x ++ sep :: intercalateSep sep (y :: rest)

/-- encode_parameters (url_utils.py lines 65-79): None input gives None;
otherwise the pairs with a None value are dropped, the rest are passed
through dict() (the source builds dict of the filtered comprehension) and
urlencoded: each key and value is quote_plus-encoded, joined as key=value
with the equals byte 61, and the fields are joined with the ampersand
byte 38.  The input_encoding parameter of the source is always None at
every call site, so _encode reduces to the identity on the utf-8 bytes
and is not modelled separately. -/
def encode_parameters (parameters : Option QParams) : Option ByteStr :=
  match parameters with
  | Option.none => Option.none
  | some ps =>
    some (intercalateSep 38
      ((pyDict (ps.filterMap (fun kv => kv.2.map (fun v => (kv.1, v))))).map
        (fun kv => quotePlus kv.1 ++ 61 :: quotePlus kv.2)))

/-- The components of a parsed URL that _build_url can touch.  Python's
urlparse is modelled at the granularity the code needs: fragment is
everything after the first hash byte 35, query is everything after the
first question-mark byte 63 of the pre-fragment part, and head is the
remainder (scheme, netloc, path and the params component folded together,
since _build_url never separates them when called without path
elements). -/
structure UrlParts where
  head : ByteStr
  query : ByteStr
  fragment : ByteStr

/-- Split a byte string at the first occurrence of sep: the part before
it, and some part-after when sep occurs at all. -/
def splitFirst (sep : Nat) : ByteStr → ByteStr × Option ByteStr
  | [] => ([], Option.none)
  | b :: rest =>
    if b = sep then ([], some rest)
    else
      let r := splitFirst sep rest
      (b :: r.1, r.2)

/-- urllib.parse.urlparse restricted to the head/query/fragment split (see
UrlParts): the fragment is split off at the first hash byte, then the
query at the first question-mark byte. -/
def urlparseLite (url : ByteStr) : UrlParts :=
  let f := splitFirst 35 url
  let q := splitFirst 63 f.1
  { head := q.1, query := (q.2).getD [], fragment := (f.2).getD [] }

/-- urllib.parse.urlunparse restricted likewise: a question mark is added
only before a non-empty query and a hash only before a non-empty
fragment. -/
def urlunparseLite (u : UrlParts) : ByteStr :=
  (u.head ++ (if u.query.isEmpty then [] else 63 :: u.query))
    ++ (if u.fragment.isEmpty then [] else 35 :: u.fragment)

/-- _build_url (url_utils.py lines 33-62): parse the base URL; if truthy
path_elements are given, drop the falsy ones and append them to the path
slash-separated (the source appends to the path component; here the path
lives inside head, which coincides with the source whenever the URL has no
params component - no call site passes path elements at all); if truthy
extra_params are given, encode them and append to the query (with an
ampersand when a base query exists); reassemble. -/
def build_url (url : ByteStr) (path_elements : Option (List ByteStr))
    (extra_params : Option QParams) : ByteStr :=
  urlunparseLite
    { head :=
        match path_elements with
        | some pes =>
          if pes.isEmpty then (urlparseLite url).head
          else
            (if (urlparseLite url).head.getLast? = some 47 then (urlparseLite url).head
             else (urlparseLite url).head ++ [47])
              ++ intercalateSep 47 (pes.filter (fun i => !i.isEmpty))
        | Option.none => (urlparseLite url).head
      query :=
        match extra_params with
        | some ps =>
          if ps.isEmpty then (urlparseLite url).query
          else
            if (urlparseLite url).query.isEmpty then
              (encode_parameters (some ps)).getD []
            else
              (urlparseLite url).query ++ 38 :: (encode_parameters (some ps)).getD []
        | Option.none => (urlparseLite url).query
      fragment := (urlparseLite url).fragment }

/-- Split a byte string on EVERY occurrence of sep (the splitting that a
query-string re-parser performs on the ampersand byte). -/
def splitOnByte (sep : Nat) : ByteStr → List ByteStr
  | [] => [[]]
  | b :: rest =>
    match splitOnByte sep rest with
    | [] => [[b]]
    | r :: rs => if b = sep then [] :: r :: rs else (b :: r) :: rs

/-- Query-string re-parser used to state the round-trip property, modelled
on urllib.parse.parse_qsl with keep_blank_values: fields are split on the
ampersand byte, empty fields are dropped, each field is split at its first
equals byte (a field with no equals byte gets an empty value), and both
sides are unquote_plus-decoded. -/
def parseQsl (qs : ByteStr) : List (ByteStr × ByteStr) :=
  (splitOnByte 38 qs).filterMap (fun field =>
    if field.isEmpty then Option.none
    else match splitFirst 61 field with
      | (n, some v) => some (unquotePlus n, unquotePlus v)
      | (n, Option.none) => some (unquotePlus n, []))

/-- The raw HTTP response produced by the transport (requests.get). -/
structure HttpResponse where
  content : ByteStr

/-- The outcome of one call of the underlying transport: a response, or a
requests.RequestException whose str() is desc. -/
inductive TransportOutcome where
  | success (r : HttpResponse)
  | failure (desc : String)

/-- What a call of request_url produces: a response, the Python None that
the source returns for unsupported methods (it falls off the end of the
function), or a raised exception. -/
inductive RequestResult where
  | response (r : HttpResponse)
  | pyNone
  | raised (e : Exc)

/-- request_url (url_utils.py lines 14-30).  transport models requests.get
as a function from the final URL to its outcome.  For GET the URL is
built with _build_url and the request issued; a RequestException is
caught and re-raised as ZillowError(str(e)).  For every other method the
source has no branch at all and returns None. -/
def request_url (url : ByteStr) (method : String) (data : Option QParams)
    (transport : ByteStr → TransportOutcome) : RequestResult :=
  if method = "GET" then
    match transport (build_url url Option.none data) with
    | TransportOutcome.success r => RequestResult.response r
    | TransportOutcome.failure d => RequestResult.raised (Exc.zillow d)
  else RequestResult.pyNone

/-- A node of the nested mapping produced by xmltodict.parse: XML text
content, a string-keyed mapping in document order, a sequence (repeated
sibling elements), or Python None (an empty element). -/
inductive XNode where
  | text (s : String)
  | map (entries : List (String × XNode))
  | list (items : List XNode)
  | null

/-- Python subscript node[k] with a string key: a mapping yields the entry
or raises KeyError; subscripting text, a sequence or None with a string
raises TypeError. -/
def XNode.getitem : XNode → String → Except Exc XNode
  | XNode.map kvs, k =>
    match List.lookup k kvs with
    | some v => Except.ok v
    | Option.none => Except.error (Exc.keyError k)
  | _, _ => Except.error Exc.typeError

/-- Python node.get(k) (also with explicit default None): on a mapping it
yields the entry or None; on anything else the attribute access itself
raises AttributeError. -/
def XNode.pyGet : XNode → String → Except Exc XNode
  | XNode.map kvs, k => Except.ok ((List.lookup k kvs).getD XNode.null)
  | _, _ => Except.error Exc.attrError

/-- Python iteration over a node: a sequence yields its items, a mapping
yields its KEYS (as text nodes, in insertion order), text yields its
one-character substrings, and None raises TypeError. -/
def XNode.pyIter : XNode → Except Exc (List XNode)
  | XNode.list xs => Except.ok xs
  | XNode.map kvs => Except.ok (kvs.map (fun kv => XNode.text kv.1))
  | XNode.text s => Except.ok (s.data.map (fun c => XNode.text (String.singleton c)))
  | XNode.null => Except.error Exc.typeError

/-- Whether a node is a mapping (a well-shaped single record). -/
def XNode.isMap : XNode → Bool
  | XNode.map _ => true
  | _ => false

/-- Rendering of a node for interpolation into error messages ('%s' in the
source).  Text and None render as Python str() renders them; the rendering
of containers is abbreviated here - no claim inspects a message built from
a container. -/
def XNode.pyStr : XNode → String
  | XNode.text s => s
  | XNode.null => "None"
  | XNode.map _ => "OrderedDict(...)"
  | XNode.list _ => "[...]"

/-- Subscript chain node[k1][k2]... with the first raised exception
propagated, modelling consecutive Python subscripts. -/
def getPath (x : XNode) : List String → Except Exc XNode
  | [] => Except.ok x
  | k :: rest =>
    match x.getitem k with
    | Except.ok v => getPath v rest
    | Except.error e => Except.error e

/-- Modelled from the spec: result_fields.py is not under src/.  A Place
(spec section 3) is one property record; its identity, address components,
valuation blocks and the extended-data flag are each individually
optional, absent keys simply stay unset. -/
structure Place where
  hasExtendedData : Bool := false
  zpid : Option XNode := Option.none
  street : Option XNode := Option.none
  city : Option XNode := Option.none
  state : Option XNode := Option.none
  zipcode : Option XNode := Option.none
  latitude : Option XNode := Option.none
  longitude : Option XNode := Option.none
  zestimate : Option XNode := Option.none
  rentzestimate : Option XNode := Option.none

/-- Modelled from the spec: the field assignment of Place ingestion from a
record mapping (spec section 4.1): each recognized top-level key is read
if present, the address components come from the nested address block via
its own ingestion, absent keys leave the field unset. -/
def placeFromEntries (ext : Bool) (kvs : List (String × XNode)) : Place :=
  let addr := match List.lookup "address" kvs with
    | some (XNode.map akvs) => akvs
    | _ => []
  { hasExtendedData := ext
    zpid := List.lookup "zpid" kvs
    street := List.lookup "street" addr
    city := List.lookup "city" addr
    state := List.lookup "state" addr
    zipcode := List.lookup "zipcode" addr
    latitude := List.lookup "latitude" addr
    longitude := List.lookup "longitude" addr
    zestimate := List.lookup "zestimate" kvs
    rentzestimate := List.lookup "rentzestimate" kvs }

/-- Modelled from the spec: Place.set_data (result_fields.py, not under
src/).  Per spec sections 3 and 4.1 every field is individually optional
and ingestion fails exactly when the raw value is not structured as a
record mapping at all (subscripting a non-mapping in Python raises
TypeError, which the facades catch broadly). -/
def Place.set_data (ext : Bool) : XNode → Except Exc Place
  | XNode.map kvs => Except.ok (placeFromEntries ext kvs)
  | _ => Except.error Exc.typeError

/-- Total variant of Place ingestion used to STATE results: on a mapping it
agrees with set_data, elsewhere it gives the default (never reached under
the theorems' hypotheses). -/
def placeOfNode : XNode → Place
  | XNode.map kvs => placeFromEntries false kvs
  | _ => {}

/-- Modelled from the spec: result_fields.py is not under src/.  A Region
(spec section 3) has optional id, name, zindex (a node that itself carries
a text payload under the key "#text"), latitude, longitude and url. -/
structure Region where
  id : Option XNode := Option.none
  region_name : Option XNode := Option.none
  zindex : Option XNode := Option.none
  latitude : Option XNode := Option.none
  longitude : Option XNode := Option.none
  url : Option XNode := Option.none

/-- Modelled from the spec: the field assignment of Region ingestion from
one region element's mapping; region_name is read from the element's name
entry and zindex keeps the raw nested node (the test reads
zindex with subscript "#text"). -/
def regionFromEntries (kvs : List (String × XNode)) : Region :=
  { id := List.lookup "id" kvs
    region_name := List.lookup "name" kvs
    zindex := List.lookup "zindex" kvs
    latitude := List.lookup "latitude" kvs
    longitude := List.lookup "longitude" kvs
    url := List.lookup "url" kvs }

/-- Modelled from the spec: Region.set_data (result_fields.py, not under
src/): ingestion of one region element, failing exactly when the raw
value is not a record mapping. -/
def Region.set_data : XNode → Except Exc Region
  | XNode.map kvs => Except.ok (regionFromEntries kvs)
  | _ => Except.error Exc.typeError

/-- Total variant of Region ingestion used to STATE results. -/
def regionOfNode : XNode → Region
  | XNode.map kvs => regionFromEntries kvs
  | _ => {}

/-- Sequential fallible map: the Python for-loop that builds a list and
stops at the first raised exception. -/
def exceptMapM {α β : Type} (f : α → Except Exc β) : List α → Except Exc (List β)
  | [] => Except.ok []
  | x :: xs =>
    match f x with
    | Except.ok y =>
      match exceptMapM f xs with
      | Except.ok ys => Except.ok (y :: ys)
      | Except.error e => Except.error e
    | Except.error e => Except.error e

/-- Ingestion of a located subtree into a Place, propagating a lookup
failure unchanged (helper shared by the wrapped facade phases). -/
def trySetPlace (ext : Bool) (sub : Except Exc XNode) : Except Exc Place :=
  match sub with
  | Except.ok v => Place.set_data ext v
  | Except.error e => Except.error e

/-- Response-processing phase of ValuationApi.GetSearchResults (api.py
lines 66-74).  data is the decoded raw response text, doc the xmltodict
parse of it.  The whole subtree lookup and ingestion sit inside
try/except Exception, so ANY failure becomes
ZillowError("Zillow did not return a valid response: " + data). -/
def getSearchResultsParse (data : String) (doc : XNode) : Except Exc Place :=
  match trySetPlace false
      (getPath doc ["SearchResults:searchresults", "response", "results", "result"]) with
  | Except.ok p => Except.ok p
  | Except.error _ =>
    Except.error (Exc.zillow ("Zillow did not return a valid response: " ++ data))

/-- Response-processing phase of ValuationApi.GetZEstimate (api.py lines
97-105): doc.get of the root key (None default) then the response
subscript and ingestion, all inside the same broad try/except. -/
def getZEstimateParse (data : String) (doc : XNode) : Except Exc Place :=
  match (match doc.pyGet "Zestimate:zestimate" with
         | Except.ok c => trySetPlace false (getPath c ["response"])
         | Except.error e => Except.error e) with
  | Except.ok p => Except.ok p
  | Except.error _ =>
    Except.error (Exc.zillow ("Zillow did not return a valid response: " ++ data))

/-- Response-processing phase of ValuationApi.GetDeepSearchResults (api.py
lines 138-146): like GetSearchResults but through doc.get for the root
key and with extended data; again everything inside the broad
try/except. -/
def getDeepSearchResultsParse (data : String) (doc : XNode) : Except Exc Place :=
  match (match doc.pyGet "SearchResults:searchresults" with
         | Except.ok c => trySetPlace true (getPath c ["response", "results", "result"])
         | Except.error e => Except.error e) with
  | Except.ok p => Except.ok p
  | Except.error _ =>
    Except.error (Exc.zillow ("Zillow did not return a valid response: " ++ data))

/-- The output dict of the comps operations: the principal Place and the
ordered comparable Places. -/
structure CompsOut where
  principal : Place
  comps : List Place

/-- One iteration of the comps loop (api.py lines 191-197): set_data
failures become ZillowError("No valid comp data found " + datum). -/
def compStep (datum : XNode) : Except Exc Place :=
  match Place.set_data false datum with
  | Except.ok p => Except.ok p
  | Except.error _ =>
    Except.error (Exc.zillow ("No valid comp data found " ++ datum.pyStr))

/-- Response-processing phase shared verbatim by GetDeepComps (api.py
lines 176-204) and GetComps (lines 229-257); the two method bodies are
identical at this stage.  The principal-subtree lookup
doc.get("Comps:comps")["response"]["properties"]["principal"] sits
OUTSIDE any try block, so its failures (TypeError when the root key is
absent and .get gives None, KeyError for a missing inner key) ESCAPE
unwrapped; only the set_data call on the located principal is wrapped
(into "No principal data found: " + data).  The comparables lookup and
the iteration are likewise outside any try; only each item's set_data is
wrapped (into "No valid comp data found " + item). -/
def compsParseCore (data : String) (doc : XNode) : Except Exc CompsOut :=
  match (match doc.pyGet "Comps:comps" with
         | Except.ok c => getPath c ["response", "properties", "principal"]
         | Except.error e => Except.error e) with
  | Except.error e => Except.error e
  | Except.ok principal_data =>
    match Place.set_data false principal_data with
    | Except.error _ =>
      Except.error (Exc.zillow ("No principal data found: " ++ data))
    | Except.ok principal_place =>
      match (match doc.pyGet "Comps:comps" with
             | Except.ok c => getPath c ["response", "properties", "comparables", "comp"]
             | Except.error e => Except.error e) with
      | Except.error e => Except.error e
      | Except.ok comps =>
        match comps.pyIter with
        | Except.error e => Except.error e
        | Except.ok items =>
          match exceptMapM compStep items with
          | Except.error e => Except.error e
          | Except.ok comp_places =>
            Except.ok { principal := principal_place, comps := comp_places }

/-- Response-processing phase of ValuationApi.GetComps (api.py lines
229-257). -/
def getCompsParse (data : String) (doc : XNode) : Except Exc CompsOut :=
  compsParseCore data doc

/-- Response-processing phase of ValuationApi.GetDeepComps (api.py lines
176-204). -/
def getDeepCompsParse (data : String) (doc : XNode) : Except Exc CompsOut :=
  compsParseCore data doc

/-- The output dict of GetRegionChildren. -/
structure RegionsOut where
  regions : List Region

/-- One iteration of the region loop (api.py lines 286-290). -/
def regionStep (datum : XNode) : Except Exc Region :=
  match Region.set_data datum with
  | Except.ok r => Except.ok r
  | Except.error _ =>
    Except.error (Exc.zillow ("No valid comp data found " ++ datum.pyStr))

/-- NeighborhoodApi._parse_out_regions (api.py lines 277-292).  The
four-subscript lookup of the region list sits outside the try block, so
a missing key escapes as a bare KeyError.  The try wraps the whole
for-loop: when starting the iteration itself raises (region_data is
None), the except handler formats the loop variable, which was never
bound, and the handler itself raises NameError. -/
def parse_out_regions (doc : XNode) : Except Exc RegionsOut :=
  match getPath doc ["RegionChildren:regionchildren", "response", "list", "region"] with
  | Except.error e => Except.error e
  | Except.ok region_data =>
    match region_data.pyIter with
    | Except.error _ => Except.error Exc.nameError
    | Except.ok items =>
      match exceptMapM regionStep items with
      | Except.error e => Except.error e
      | Except.ok regions => Except.ok { regions := regions }

/-- The parsed document of a comps (or deep comps) response whose
Comps:comps response/properties holds the given principal node and whose
comparables/comp entry is the given node (xmltodict yields a sequence
node there when the XML has two or more comp elements, a single mapping
when it has exactly one). -/
def compsDoc (principal compNode : XNode) : XNode :=
  XNode.map [("Comps:comps", XNode.map
    [("response", XNode.map
      [("properties", XNode.map
        [("principal", principal),
         ("comparables", XNode.map [("comp", compNode)])])])])]

/-- The parsed document of a region-children response whose list/region
entry is the given node (a sequence node when the XML has two or more
region elements, a single mapping when it has exactly one). -/
def regionsDoc (regionNode : XNode) : XNode :=
  XNode.map [("RegionChildren:regionchildren", XNode.map
    [("response", XNode.map
      [("list", XNode.map [("region", regionNode)])])])]

/-- Every byte of every key and of every non-None value of the mapping is a
genuine byte (below 256); true of the utf-8 bytes of any Python str. -/
def qparamsBytesOK (ps : QParams) : Bool :=
  ps.all (fun kv => kv.1.all (fun b => b < 256)
    && (kv.2.getD []).all (fun b => b < 256))

/-- A concrete endpoint base URL (query-free), for witnesses. -/
def c7Base : ByteStr := strBytes "https://w.z/GetSearchResults.htm"

/-- A concrete parameter mapping with distinct keys, a value containing a
space, and one None value, for witnesses. -/
def c7Params : QParams :=
  [(strBytes "zws-id", some (strBytes "key")),
   (strBytes "address", some (strBytes "2114 Bigelow Ave")),
   (strBytes "opt", Option.none)]

end Zillow

namespace Zillow

/-- C10: GetComps and GetDeepComps perform no range validation of count:
for every integer count (also outside 1..25) the built parameter mapping
is returned as-is, carrying the count entry with the given value
unchanged, and no validation error is possible. -/
theorem C10_count_passthrough (z zpid : String) (count : Int) (r : Bool) :
    GetComps_params z zpid count r =
      Except.ok ([("zws-id", PVal.str z), ("zpid", PVal.str zpid),
        ("count", PVal.int count)]
        ++ if r then [("rentzestimate", PVal.str "true")] else [])
    ∧ GetDeepComps_params z zpid count r =
      Except.ok ([("zws-id", PVal.str z), ("zpid", PVal.str zpid),
        ("count", PVal.int count)]
        ++ if r then [("rentzestimate", PVal.str "true")] else []) :=
  ⟨rfl, rfl⟩

/-- C8: for every GET call of request_url, a transport failure with
description d is caught and re-raised as ZillowError carrying d as its
message, and a transport success is returned as the response; no
transport exception ever escapes unwrapped. -/
theorem C8_transport_wrapped (url : ByteStr) (data : Option QParams)
    (d : String) (r : HttpResponse) :
    request_url url "GET" data (fun _ => TransportOutcome.failure d) =
      RequestResult.raised (Exc.zillow d)
    ∧ request_url url "GET" data (fun _ => TransportOutcome.success r) =
      RequestResult.response r :=
  ⟨rfl, rfl⟩

/-- C6 counterexample: request_url called with method POST silently
returns Python None without performing any request and WITHOUT raising,
contradicting the claim that non-GET methods fail fast with an error. -/
theorem C6_counterexample :
    request_url (strBytes "https://www.zillow.com/webservice/GetSearchResults.htm")
      "POST" Option.none (fun _ => TransportOutcome.success { content := [] }) =
      RequestResult.pyNone := rfl

/-- C6 amended: for every method other than GET, request_url performs no
request and silently returns None (the source has no branch for other
methods), rather than raising an error. -/
theorem C6_nonget_amended (url : ByteStr) (method : String) (data : Option QParams)
    (transport : ByteStr → TransportOutcome) (h : method ≠ "GET") :
    request_url url method data transport = RequestResult.pyNone := by
  unfold request_url
  rw [if_neg h]

/-- Witness for C6_nonget_amended at the method PUT. -/
theorem C6_witness :
    "PUT" ≠ "GET"
    ∧ request_url [] "PUT" Option.none (fun _ => TransportOutcome.success { content := [] }) =
      RequestResult.pyNone :=
  ⟨by decide, C6_nonget_amended [] "PUT" Option.none _ (by decide)⟩

/-- C3 counterexample: GetDeepSearchResults with NEITHER address nor
citystatezip supplied raises no validation error at all: its
parameter-building phase succeeds and the request is issued with the two
None values in the mapping, contradicting the claim that every
deep-search call validates the pair before any network request. -/
theorem C3_counterexample :
    GetDeepSearchResults_params "zws" Option.none Option.none false =
      Except.ok [("zws-id", PVal.str "zws"), ("address", PVal.noneVal),
        ("citystatezip", PVal.noneVal)] := rfl

/-- C3 amended: GetSearchResults does validate - whenever address and
citystatezip are not both truthy it raises
ZillowError("Specify address and citystatezip.") before any request -
but GetDeepSearchResults performs no such validation and always issues
the request with the given values. -/
theorem C3_validation_amended (z : String) (a c : Option String) (r : Bool)
    (h : ¬(truthy a = true ∧ truthy c = true)) :
    GetSearchResults_params z a c r =
      Except.error (Exc.zillow "Specify address and citystatezip.")
    ∧ GetDeepSearchResults_params z a c r =
      Except.ok ([("zws-id", PVal.str z), ("address", pvalOfOpt a),
        ("citystatezip", pvalOfOpt c)]
        ++ if r then [("rentzestimate", PVal.str "true")] else []) := by
  constructor
  · have hb : ¬((truthy a && truthy c) = true) := by
      simp only [Bool.and_eq_true]
      exact h
    unfold GetSearchResults_params
    rw [if_neg hb]
  · rfl

/-- Witness for C3_validation_amended with both arguments absent. -/
theorem C3_witness :
    (¬(truthy Option.none = true ∧ truthy Option.none = true))
    ∧ GetSearchResults_params "z" Option.none Option.none false =
      Except.error (Exc.zillow "Specify address and citystatezip.") :=
  ⟨by decide, (C3_validation_amended "z" Option.none Option.none false (by decide)).1⟩

/-- C4 counterexample: GetRegionChildren with BOTH region_id and state
supplied raises the built-in ValueError, not the library's ZillowError,
contradicting the claim that the single library error kind is raised. -/
theorem C4_counterexample :
    GetRegionChildren_params "zws" [("region_id", "12345"), ("state", "WA")] =
      Except.error (Exc.valueError
        "One keyword argument of 'region_id' or 'state' is required") := rfl

/-- C4 amended: supplying both of region_id and state, or neither, makes
GetRegionChildren raise before any network request - but the exception is
the BUILT-IN ValueError (with the source's message), not the library's
ZillowError. -/
theorem C4_validation_amended (z : String) (kwargs : List (String × String))
    (h : ("region_id" ∈ kwargs.map Prod.fst ∧ "state" ∈ kwargs.map Prod.fst)
       ∨ ("region_id" ∉ kwargs.map Prod.fst ∧ "state" ∉ kwargs.map Prod.fst)) :
    GetRegionChildren_params z kwargs =
      Except.error (Exc.valueError
        "One keyword argument of 'region_id' or 'state' is required") := by
  unfold GetRegionChildren_params
  have hc : (["region_id", "state"].filter
      (fun k => (kwargs.map Prod.fst).contains k)).length ≠ 1 := by
    rcases h with ⟨h1, h2⟩ | ⟨h1, h2⟩ <;> simp [List.filter, h1, h2]
  rw [if_pos hc]

/-- Witness for C4_validation_amended with neither keyword supplied. -/
theorem C4_witness :
    ("region_id" ∉ ([("city", "Seattle")].map (Prod.fst (α := String) (β := String)))
      ∧ "state" ∉ ([("city", "Seattle")].map (Prod.fst (α := String) (β := String))))
    ∧ GetRegionChildren_params "z" [("city", "Seattle")] =
      Except.error (Exc.valueError
        "One keyword argument of 'region_id' or 'state' is required") :=
  ⟨⟨by decide, by decide⟩,
    C4_validation_amended "z" [("city", "Seattle")] (Or.inr ⟨by decide, by decide⟩)⟩

/-- C9: in every facade taking the rentzestimate flag, the built mapping
carries the rentzestimate key exactly when the flag is true; when the
flag is false the key is absent altogether (never present with a false
value).  For GetSearchResults this holds for whichever mapping the
validation lets through. -/
theorem C9_rentzestimate_iff (z zpid : String) (a c : Option String)
    (count : Int) (r : Bool) :
    (paramKeys (GetZEstimate_params z zpid r)).contains "rentzestimate" = r
    ∧ (paramKeys (GetDeepSearchResults_params z a c r)).contains "rentzestimate" = r
    ∧ (paramKeys (GetComps_params z zpid count r)).contains "rentzestimate" = r
    ∧ (paramKeys (GetDeepComps_params z zpid count r)).contains "rentzestimate" = r
    ∧ ∀ ps, GetSearchResults_params z a c r = Except.ok ps →
        (ps.map Prod.fst).contains "rentzestimate" = r := by
  cases r <;>
    refine ⟨rfl, rfl, rfl, rfl, fun ps h => ?_⟩ <;>
    · revert h
      unfold GetSearchResults_params
      by_cases hc : (truthy a && truthy c) = true
      · rw [if_pos hc]
        intro h
        injection h with h2
        subst h2
        rfl
      · rw [if_neg hc]
        intro h
        exact Except.noConfusion h

/-- Witness for C9_rentzestimate_iff: GetSearchResults with valid
arguments and the flag set produces a mapping whose keys include
rentzestimate. -/
theorem C9_witness :
    GetSearchResults_params "z" (some "a") (some "b") true =
      Except.ok [("zws-id", PVal.str "z"), ("address", PVal.str "a"),
        ("citystatezip", PVal.str "b"), ("rentzestimate", PVal.str "true")]
    ∧ ([("zws-id", PVal.str "z"), ("address", PVal.str "a"),
        ("citystatezip", PVal.str "b"),
        ("rentzestimate", PVal.str "true")].map Prod.fst).contains "rentzestimate"
      = true :=
  ⟨rfl, (C9_rentzestimate_iff "z" "z" (some "a") (some "b") 0 true).2.2.2.2 _ rfl⟩

/-- C1 counterexample: GetDeepComps on a parsed response that lacks the
Comps:comps subtree lets a bare built-in TypeError escape (doc.get gives
None, which is then subscripted outside any try block) instead of
raising ZillowError with the raw response text. -/
theorem C1_counterexample :
    getDeepCompsParse "<rawxml/>" (XNode.map [("SomethingElse:other", XNode.null)]) =
      Except.error Exc.typeError := rfl

/-- C1 amended: GetSearchResults, GetZEstimate and GetDeepSearchResults do
wrap every lookup or ingestion failure into ZillowError carrying the raw
response text (and never return a partial object - the ok branch carries
a fully built Place); but GetDeepComps, GetComps and the region parsing
locate the required subtree OUTSIDE the try block, so a response missing
the top-level subtree makes a bare built-in exception escape (TypeError
via the subscripted None for the comps operations, KeyError for the
region operation). -/
theorem C1_wrapped_errors_amended (data : String) (doc : XNode) :
    ((∃ p, getSearchResultsParse data doc = Except.ok p)
      ∨ getSearchResultsParse data doc =
          Except.error (Exc.zillow ("Zillow did not return a valid response: " ++ data)))
    ∧ ((∃ p, getZEstimateParse data doc = Except.ok p)
      ∨ getZEstimateParse data doc =
          Except.error (Exc.zillow ("Zillow did not return a valid response: " ++ data)))
    ∧ ((∃ p, getDeepSearchResultsParse data doc = Except.ok p)
      ∨ getDeepSearchResultsParse data doc =
          Except.error (Exc.zillow ("Zillow did not return a valid response: " ++ data)))
    ∧ getDeepCompsParse data (XNode.map []) = Except.error Exc.typeError
    ∧ getCompsParse data (XNode.map []) = Except.error Exc.typeError
    ∧ parse_out_regions (XNode.map []) =
        Except.error (Exc.keyError "RegionChildren:regionchildren") := by
  refine ⟨?_, ?_, ?_, rfl, rfl, rfl⟩
  · unfold getSearchResultsParse
    cases hT : trySetPlace false
        (getPath doc ["SearchResults:searchresults", "response", "results", "result"]) with
    | error e => exact Or.inr rfl
    | ok p => exact Or.inl ⟨p, rfl⟩
  · unfold getZEstimateParse
    cases hT : (match doc.pyGet "Zestimate:zestimate" with
        | Except.ok c => trySetPlace false (getPath c ["response"])
        | Except.error e => Except.error e) with
    | error e => exact Or.inr rfl
    | ok p => exact Or.inl ⟨p, rfl⟩
  · unfold getDeepSearchResultsParse
    cases hT : (match doc.pyGet "SearchResults:searchresults" with
        | Except.ok c => trySetPlace true (getPath c ["response", "results", "result"])
        | Except.error e => Except.error e) with
    | error e => exact Or.inr rfl
    | ok p => exact Or.inl ⟨p, rfl⟩

/-- Sequential fallible map succeeds elementwise: when every element maps
to ok of g, the loop returns the mapped list in order. -/
lemma exceptMapM_ok {α β : Type} (f : α → Except Exc β) (g : α → β) :
    ∀ l : List α, (∀ x ∈ l, f x = Except.ok (g x)) →
      exceptMapM f l = Except.ok (l.map g) := by
  intro l
  induction l with
  | nil => intro _; rfl
  | cons x xs ih =>
    intro h
    have hx := h x (List.mem_cons_self x xs)
    have hxs := ih (fun y hy => h y (List.mem_cons_of_mem x hy))
    simp [exceptMapM, hx, hxs]

/-- A comp-loop iteration on a record mapping succeeds with the ingested
Place. -/
lemma compStep_ok (x : XNode) (h : x.isMap = true) :
    compStep x = Except.ok (placeOfNode x) := by
  cases x <;> simp_all [XNode.isMap, compStep, Place.set_data, placeOfNode]

/-- A region-loop iteration on a record mapping succeeds with the ingested
Region. -/
lemma regionStep_ok (x : XNode) (h : x.isMap = true) :
    regionStep x = Except.ok (regionOfNode x) := by
  cases x <;> simp_all [XNode.isMap, regionStep, Region.set_data, regionOfNode]

/-- C2: on a parsed comps (or deep comps) response holding one principal
record and a SEQUENCE of N comparable records, GetComps and GetDeepComps
return exactly the one ingested principal Place and exactly the N
comparable Places, in the provider's order (the output list is the
elementwise ingestion of the input sequence, not re-sorted). -/
theorem C2_comps_counts (data : String) (p : XNode) (cs : List XNode)
    (hp : p.isMap = true) (hcs : ∀ c ∈ cs, c.isMap = true) :
    getCompsParse data (compsDoc p (XNode.list cs)) =
      Except.ok { principal := placeOfNode p, comps := cs.map placeOfNode }
    ∧ getDeepCompsParse data (compsDoc p (XNode.list cs)) =
      Except.ok { principal := placeOfNode p, comps := cs.map placeOfNode }
    ∧ (cs.map placeOfNode).length = cs.length := by
  have hm : exceptMapM compStep cs = Except.ok (cs.map placeOfNode) :=
    exceptMapM_ok _ _ cs (fun c hc => compStep_ok c (hcs c hc))
  obtain ⟨kvs, rfl⟩ : ∃ kvs, p = XNode.map kvs := by
    cases p
    case map kvs => exact ⟨kvs, rfl⟩
    all_goals simp [XNode.isMap] at hp
  have core : compsParseCore data (compsDoc (XNode.map kvs) (XNode.list cs)) =
      Except.ok { principal := placeOfNode (XNode.map kvs), comps := cs.map placeOfNode } := by
    unfold compsParseCore compsDoc
    simp [XNode.pyGet, List.lookup, getPath, XNode.getitem, XNode.pyIter,
      Place.set_data, placeOfNode, hm]
  exact ⟨core, core, by simp⟩

/-- Witness for C2_comps_counts: one principal and two comparables come
back as one principal Place and the two comparable Places in order. -/
theorem C2_witness :
    ((XNode.map [("zpid", XNode.text "48749425")]).isMap = true)
    ∧ (∀ c ∈ [XNode.map [("zpid", XNode.text "111")],
          XNode.map [("zpid", XNode.text "222")]], c.isMap = true)
    ∧ getCompsParse "raw"
        (compsDoc (XNode.map [("zpid", XNode.text "48749425")])
          (XNode.list [XNode.map [("zpid", XNode.text "111")],
            XNode.map [("zpid", XNode.text "222")]])) =
      Except.ok { principal := placeOfNode (XNode.map [("zpid", XNode.text "48749425")])
                  comps := [XNode.map [("zpid", XNode.text "111")],
                    XNode.map [("zpid", XNode.text "222")]].map placeOfNode } :=
  ⟨rfl, by decide, (C2_comps_counts "raw" _ _ (by decide) (by decide)).1⟩

/-- C5 counterexample: a region-children response with EXACTLY ONE region
element parses (as xmltodict does) to a single mapping under the region
key, the code then iterates that mapping's KEYS, ingestion of the first
key fails, and the whole operation raises ZillowError instead of
returning the one-element sequence the claim promises. -/
theorem C5_counterexample :
    parse_out_regions (regionsDoc (XNode.map
      [("name", XNode.text "Alki"),
       ("zindex", XNode.map [("@currency", XNode.text "USD"),
         ("#text", XNode.text "537360")])])) =
      Except.error (Exc.zillow "No valid comp data found name") := rfl

/-- C5 amended: when the parsed region list holds a SEQUENCE of region
record mappings (which xmltodict produces when the XML has two or more
region elements), the parsed result has exactly one Region per source
element, each carrying the source element's name and zindex entries
unchanged; a single region element parses to a mapping instead and makes
the operation raise ZillowError. -/
theorem C5_regions_amended (rs : List XNode) (h : ∀ r ∈ rs, r.isMap = true) :
    parse_out_regions (regionsDoc (XNode.list rs)) =
      Except.ok { regions := rs.map regionOfNode }
    ∧ (rs.map regionOfNode).length = rs.length := by
  have hm : exceptMapM regionStep rs = Except.ok (rs.map regionOfNode) :=
    exceptMapM_ok _ _ rs (fun r hr => regionStep_ok r (h r hr))
  constructor
  · unfold parse_out_regions regionsDoc
    simp [getPath, XNode.getitem, List.lookup, XNode.pyIter, hm]
  · simp

/-- Witness for C5_regions_amended: the Alki element (name "Alki", zindex
text "537360") next to a second region yields two Regions whose first has
region_name Alki and zindex text 537360, echoing the repository test. -/
theorem C5_witness :
    (∀ r ∈ [XNode.map [("id", XNode.text "250017"), ("name", XNode.text "Alki"),
          ("zindex", XNode.map [("@currency", XNode.text "USD"),
            ("#text", XNode.text "537360")])],
        XNode.map [("id", XNode.text "250692"), ("name", XNode.text "Admiral")]],
      r.isMap = true)
    ∧ parse_out_regions (regionsDoc (XNode.list
        [XNode.map [("id", XNode.text "250017"), ("name", XNode.text "Alki"),
          ("zindex", XNode.map [("@currency", XNode.text "USD"),
            ("#text", XNode.text "537360")])],
         XNode.map [("id", XNode.text "250692"), ("name", XNode.text "Admiral")]])) =
      Except.ok { regions :=
                    [XNode.map [("id", XNode.text "250017"), ("name", XNode.text "Alki"),
                      ("zindex", XNode.map [("@currency", XNode.text "USD"),
                        ("#text", XNode.text "537360")])],
                     XNode.map [("id", XNode.text "250692"),
                       ("name", XNode.text "Admiral")]].map regionOfNode }
    ∧ (regionOfNode (XNode.map [("id", XNode.text "250017"),
        ("name", XNode.text "Alki"),
        ("zindex", XNode.map [("@currency", XNode.text "USD"),
          ("#text", XNode.text "537360")])])).region_name = some (XNode.text "Alki")
    ∧ ((regionOfNode (XNode.map [("id", XNode.text "250017"),
        ("name", XNode.text "Alki"),
        ("zindex", XNode.map [("@currency", XNode.text "USD"),
          ("#text", XNode.text "537360")])])).zindex.getD XNode.null).getitem "#text" =
      Except.ok (XNode.text "537360") :=
  ⟨by decide, (C5_regions_amended _ (by decide)).1, rfl, rfl⟩


/-- Round trip of one hex nibble through the uppercase hex digit byte. -/
lemma hexVal_hexDigit : ∀ n < 16, hexVal (hexDigit n) = some n := by decide

/-- A safe byte is none of the separator bytes hash, percent, ampersand,
plus, equals, question mark. -/
lemma isSafe_facts (b : Nat) (h : isSafeByte b = true) :
    b ≠ 35 ∧ b ≠ 37 ∧ b ≠ 38 ∧ b ≠ 43 ∧ b ≠ 61 ∧ b ≠ 63 := by
  simp [isSafeByte] at h
  rcases h with ⟨h1, h2⟩ | ⟨h1, h2⟩ | ⟨h1, h2⟩ | h | h | h | h <;> omega

/-- A hex digit byte is none of the separator bytes hash, ampersand,
equals, question mark. -/
lemma hexDigit_facts (n : Nat) :
    hexDigit n ≠ 35 ∧ hexDigit n ≠ 38 ∧ hexDigit n ≠ 61 ∧ hexDigit n ≠ 63 := by
  unfold hexDigit
  split <;> omega

/-- No byte of a quoted byte is hash, ampersand, equals or question mark. -/
lemma quoteByte_facts (b : Nat) (c : Nat) (hc : c ∈ quoteByte b) :
    c ≠ 35 ∧ c ≠ 38 ∧ c ≠ 61 ∧ c ≠ 63 := by
  unfold quoteByte at hc
  by_cases h1 : isSafeByte b = true
  · rw [if_pos h1] at hc
    simp at hc
    subst hc
    have h2 := isSafe_facts _ h1
    tauto
  · rw [if_neg h1] at hc
    by_cases h2 : b = 32
    · rw [if_pos h2] at hc
      simp at hc
      omega
    · rw [if_neg h2] at hc
      simp at hc
      rcases hc with hc | hc | hc
      · omega
      · subst hc; exact hexDigit_facts _
      · subst hc; exact hexDigit_facts _

/-- No byte of a quote_plus-encoded string is hash, ampersand, equals or
question mark. -/
lemma quotePlus_facts (s : ByteStr) :
    ∀ c ∈ quotePlus s, c ≠ 35 ∧ c ≠ 38 ∧ c ≠ 61 ∧ c ≠ 63 := by
  induction s with
  | nil => intro c hc; simp [quotePlus] at hc
  | cons b t ih =>
    intro c hc
    simp only [quotePlus] at hc
    rcases List.mem_append.mp hc with h | h
    · exact quoteByte_facts b c h
    · exact ih c h

/-- unquote_plus on a byte that is neither plus nor percent just emits it. -/
lemma unquotePlus_cons_plain (b : Nat) (t : ByteStr) (h43 : b ≠ 43) (h37 : b ≠ 37) :
    unquotePlus (b :: t) = b :: unquotePlus t := by
  rw [unquotePlus.eq_def]
  split
  all_goals simp_all

/-- unquote_plus on a valid percent escape emits the encoded byte. -/
lemma unquotePlus_pct (h l : Nat) (t : ByteStr) (hv lv : Nat)
    (hh : hexVal h = some hv) (hl : hexVal l = some lv) :
    unquotePlus (37 :: h :: l :: t) = (hv * 16 + lv) :: unquotePlus t := by
  rw [unquotePlus.eq_def]
  simp [hh, hl]

/-- unquote_plus inverts quote_plus on one genuine byte, whatever follows. -/
lemma unquotePlus_quoteByte (b : Nat) (hb : b < 256) (t : ByteStr) :
    unquotePlus (quoteByte b ++ t) = b :: unquotePlus t := by
  unfold quoteByte
  by_cases h1 : isSafeByte b = true
  · rw [if_pos h1]
    have h2 := isSafe_facts b h1
    exact unquotePlus_cons_plain b t (by tauto) (by tauto)
  · rw [if_neg h1]
    by_cases h2 : b = 32
    · rw [if_pos h2]
      subst h2
      rfl
    · rw [if_neg h2]
      have hh : hexVal (hexDigit (b / 16)) = some (b / 16) :=
        hexVal_hexDigit _ (by omega)
      have hl : hexVal (hexDigit (b % 16)) = some (b % 16) :=
        hexVal_hexDigit _ (by omega)
      have e := unquotePlus_pct (hexDigit (b / 16)) (hexDigit (b % 16)) t _ _ hh hl
      have hb2 : b / 16 * 16 + b % 16 = b := by omega
      simpa [hb2] using e

/-- unquote_plus inverts quote_plus on genuine byte strings. -/
lemma unquote_quotePlus (s : ByteStr) (h : ∀ b ∈ s, b < 256) :
    unquotePlus (quotePlus s) = s := by
  induction s with
  | nil => rfl
  | cons b t ih =>
    have hb := h b (List.mem_cons_self b t)
    have ht := ih (fun x hx => h x (List.mem_cons_of_mem b hx))
    simp only [quotePlus]
    rw [unquotePlus_quoteByte b hb, ht]


/-- splitFirst finds nothing when the separator is absent. -/
lemma splitFirst_of_not_mem (sep : Nat) (s : ByteStr) (h : sep ∉ s) :
    splitFirst sep s = (s, Option.none) := by
  induction s with
  | nil => rfl
  | cons b t ih =>
    simp [List.mem_cons] at h
    obtain ⟨h1, h2⟩ := h
    simp only [splitFirst]
    rw [if_neg (fun e => h1 e.symm)]
    simp [ih h2]

/-- splitFirst cuts exactly at the first separator occurrence. -/
lemma splitFirst_append (sep : Nat) (a b : ByteStr) (h : sep ∉ a) :
    splitFirst sep (a ++ sep :: b) = (a, some b) := by
  induction a with
  | nil => simp [splitFirst]
  | cons x t ih =>
    simp [List.mem_cons] at h
    obtain ⟨h1, h2⟩ := h
    simp only [List.cons_append, splitFirst]
    rw [if_neg (fun e => h1 e.symm)]
    simp [ih h2]

/-- The before-part of splitFirst never holds the separator. -/
lemma not_mem_splitFirst_fst (sep : Nat) (s : ByteStr) :
    sep ∉ (splitFirst sep s).1 := by
  induction s with
  | nil => simp [splitFirst]
  | cons b t ih =>
    simp only [splitFirst]
    by_cases hb : b = sep
    · rw [if_pos hb]; simp
    · rw [if_neg hb]
      simp only [List.mem_cons, not_or]
      exact ⟨fun e => hb e.symm, ih⟩

/-- The before-part of splitFirst is made of bytes of the input. -/
lemma mem_of_mem_splitFirst_fst (sep : Nat) (s : ByteStr) (c : Nat)
    (h : c ∈ (splitFirst sep s).1) : c ∈ s := by
  induction s with
  | nil => simp [splitFirst] at h
  | cons b t ih =>
    simp only [splitFirst] at h
    by_cases hb : b = sep
    · rw [if_pos hb] at h; simp at h
    · rw [if_neg hb] at h
      simp only [List.mem_cons] at h
      rcases h with rfl | h
      · exact List.mem_cons_self c t
      · exact List.mem_cons_of_mem b (ih h)

/-- The head component of a parsed URL holds neither the hash byte nor the
question-mark byte. -/
lemma urlparse_head_facts (url : ByteStr) :
    35 ∉ (urlparseLite url).head ∧ 63 ∉ (urlparseLite url).head := by
  simp only [urlparseLite]
  constructor
  · intro h
    exact not_mem_splitFirst_fst 35 url (mem_of_mem_splitFirst_fst 63 _ 35 h)
  · exact not_mem_splitFirst_fst 63 _

/-- Reassembling head, query and fragment and re-parsing gives them back,
provided the head holds no hash or question mark and the query no hash. -/
lemma urlparse_urlunparse (head q f : ByteStr)
    (h35 : 35 ∉ head) (h63 : 63 ∉ head) (hq : 35 ∉ q) :
    urlparseLite (urlunparseLite { head := head, query := q, fragment := f }) =
      { head := head, query := q, fragment := f } := by
  have h35q : (35 : Nat) ∉ head ++ 63 :: q := by
    intro hc
    rcases List.mem_append.mp hc with hc | hc
    · exact h35 hc
    · rcases List.mem_cons.mp hc with hc | hc
      · exact absurd hc (by decide)
      · exact hq hc
  simp only [urlunparseLite]
  by_cases hqe : q.isEmpty <;> by_cases hfe : f.isEmpty
  · obtain rfl : q = [] := List.isEmpty_iff.mp hqe
    obtain rfl : f = [] := List.isEmpty_iff.mp hfe
    simp only [urlparseLite, List.isEmpty_nil, if_pos, List.append_nil]
    rw [splitFirst_of_not_mem 35 head h35]
    simp only []
    rw [splitFirst_of_not_mem 63 head h63]
    simp
  · obtain rfl : q = [] := List.isEmpty_iff.mp hqe
    have hfne : ¬(f.isEmpty = true) := hfe
    simp only [urlparseLite, List.isEmpty_nil, if_pos, List.append_nil]
    rw [if_neg hfne]
    rw [splitFirst_append 35 head f h35]
    simp only []
    rw [splitFirst_of_not_mem 63 head h63]
    simp
  · obtain rfl : f = [] := List.isEmpty_iff.mp hfe
    have hqne : ¬(q.isEmpty = true) := hqe
    simp only [urlparseLite, List.isEmpty_nil, if_pos, List.append_nil]
    rw [if_neg hqne]
    rw [splitFirst_of_not_mem 35 _ h35q]
    simp only []
    rw [splitFirst_append 63 head q h63]
    simp
  · have hfne : ¬(f.isEmpty = true) := hfe
    have hqne : ¬(q.isEmpty = true) := hqe
    simp only [urlparseLite]
    rw [if_neg hqne, if_neg hfne]
    rw [splitFirst_append 35 _ f h35q]
    simp only []
    rw [splitFirst_append 63 head q h63]
    simp


/-- splitOnByte never yields the empty field list. -/
lemma splitOnByte_ne_nil (sep : Nat) (s : ByteStr) : splitOnByte sep s ≠ [] := by
  induction s with
  | nil => simp [splitOnByte]
  | cons b t ih =>
    simp only [splitOnByte]
    cases h : splitOnByte sep t with
    | nil => simp
    | cons r rs => by_cases hb : b = sep <;> simp [hb]

/-- A separator-free byte string is one whole field. -/
lemma splitOnByte_of_not_mem (sep : Nat) (x : ByteStr) (h : sep ∉ x) :
    splitOnByte sep x = [x] := by
  induction x with
  | nil => rfl
  | cons b t ih =>
    simp [List.mem_cons] at h
    obtain ⟨h1, h2⟩ := h
    have hb : ¬(b = sep) := fun e => h1 e.symm
    simp only [splitOnByte]
    rw [ih h2]
    simp [hb]

/-- Splitting after a separator-free prefix peels off that prefix. -/
lemma splitOnByte_append (sep : Nat) (x t : ByteStr) (h : sep ∉ x) :
    splitOnByte sep (x ++ sep :: t) = x :: splitOnByte sep t := by
  induction x with
  | nil =>
    simp only [List.nil_append, splitOnByte]
    cases hsp : splitOnByte sep t with
    | nil => exact absurd hsp (splitOnByte_ne_nil sep t)
    | cons r rs => simp
  | cons b x2 ih =>
    simp [List.mem_cons] at h
    obtain ⟨h1, h2⟩ := h
    have hb : ¬(b = sep) := fun e => h1 e.symm
    simp only [List.cons_append, splitOnByte]
    simp only [List.append_eq]
    rw [ih h2]
    simp [hb]

/-- splitOnByte inverts the separator join of separator-free fields. -/
lemma splitOn_intercalateSep (sep : Nat) (fields : List ByteStr)
    (hne : fields ≠ []) (hf : ∀ fd ∈ fields, sep ∉ fd) :
    splitOnByte sep (intercalateSep sep fields) = fields := by
  induction fields with
  | nil => exact absurd rfl hne
  | cons x rest ih =>
    cases rest with
    | nil =>
      simp only [intercalateSep]
      exact splitOnByte_of_not_mem sep x (hf x (List.mem_cons_self x []))
    | cons y rest2 =>
      simp only [intercalateSep]
      rw [splitOnByte_append sep x _ (hf x (List.mem_cons_self _ _))]
      rw [ih (by simp) (fun fd hfd => hf fd (List.mem_cons_of_mem x hfd))]

/-- Every byte of a separator join is the separator or a byte of a field. -/
lemma mem_intercalateSep (sep : Nat) (xss : List ByteStr) (c : Nat)
    (h : c ∈ intercalateSep sep xss) : c = sep ∨ ∃ xs ∈ xss, c ∈ xs := by
  induction xss with
  | nil => simp [intercalateSep] at h
  | cons x rest ih =>
    cases rest with
    | nil =>
      simp only [intercalateSep] at h
      exact Or.inr ⟨x, by simp, h⟩
    | cons y rest2 =>
      simp only [intercalateSep] at h
      rcases List.mem_append.mp h with h | h
      · exact Or.inr ⟨x, by simp, h⟩
      · rcases List.mem_cons.mp h with h | h
        · exact Or.inl h
        · rcases ih h with h | ⟨xs, hxs, hc⟩
          · exact Or.inl h
          · exact Or.inr ⟨xs, List.mem_cons_of_mem x hxs, hc⟩

/-- A filterMap that recovers each mapped element is the identity. -/
lemma filterMap_map_some {α β : Type} (g : α → Option β) (f : β → α) (l : List β)
    (h : ∀ x ∈ l, g (f x) = some x) : (l.map f).filterMap g = l := by
  induction l with
  | nil => rfl
  | cons x t ih =>
    simp only [List.map_cons, List.filterMap_cons]
    rw [h x (List.mem_cons_self x t)]
    rw [ih (fun y hy => h y (List.mem_cons_of_mem x hy))]

/-- Python dict assignment of a fresh key appends the pair. -/
lemma dictSet_of_not_mem (d : List (ByteStr × ByteStr)) (k v : ByteStr)
    (h : ∀ kv ∈ d, kv.1 ≠ k) : dictSet d k v = d ++ [(k, v)] := by
  unfold dictSet
  rw [if_neg]
  intro hc
  rw [List.any_eq_true] at hc
  obtain ⟨kv, hkv, he⟩ := hc
  exact h kv hkv (by simpa using he)

/-- dict() of pairs with pairwise-distinct keys keeps them unchanged. -/
lemma pyDict_of_nodup (ps : List (ByteStr × ByteStr)) : ∀ d,
    ((d ++ ps).map Prod.fst).Nodup →
    ps.foldl (fun d kv => dictSet d kv.1 kv.2) d = d ++ ps := by
  induction ps with
  | nil => intro d _; simp
  | cons kv ps2 ih =>
    intro d hnd
    have hk : ∀ kv2 ∈ d, kv2.1 ≠ kv.1 := by
      intro kv2 hkv2 he
      have h1 : kv2.1 ∈ d.map Prod.fst := List.mem_map_of_mem _ hkv2
      have h2 := hnd
      rw [List.map_append] at h2
      have h3 := (List.nodup_append.mp h2).2.2
      exact h3 h1 (by simp [he])
    rw [List.foldl_cons]
    rw [dictSet_of_not_mem d kv.1 kv.2 hk]
    have e1 : d ++ [(kv.1, kv.2)] = d ++ [kv] := by simp
    rw [e1]
    have e2 : (d ++ [kv]) ++ ps2 = d ++ kv :: ps2 := by simp
    rw [show d ++ kv :: ps2 = (d ++ [kv]) ++ ps2 from e2.symm]
    exact ih (d ++ [kv]) (by rw [e2]; exact hnd)

/-- pyDict is the identity on a genuine mapping (distinct keys). -/
lemma pyDict_eq_self (ps : List (ByteStr × ByteStr))
    (h : (ps.map Prod.fst).Nodup) : pyDict ps = ps := by
  have e := pyDict_of_nodup ps [] (by simpa using h)
  simpa [pyDict] using e


/-- Re-parsing the urlencoded join of genuine-byte pairs recovers them. -/
lemma parse_encoded (l : List (ByteStr × ByteStr))
    (hb : ∀ kv ∈ l, (∀ b ∈ kv.1, b < 256) ∧ (∀ b ∈ kv.2, b < 256)) :
    parseQsl (intercalateSep 38
      (l.map (fun kv => quotePlus kv.1 ++ 61 :: quotePlus kv.2))) = l := by
  cases l with
  | nil => rfl
  | cons kv0 l2 =>
    have hsplit : splitOnByte 38 (intercalateSep 38
        ((kv0 :: l2).map (fun kv => quotePlus kv.1 ++ 61 :: quotePlus kv.2))) =
        (kv0 :: l2).map (fun kv => quotePlus kv.1 ++ 61 :: quotePlus kv.2) := by
      apply splitOn_intercalateSep
      · simp
      · intro fd hfd
        rw [List.mem_map] at hfd
        obtain ⟨kv, hkv, rfl⟩ := hfd
        intro hc
        rcases List.mem_append.mp hc with h | h
        · exact (quotePlus_facts _ _ h).2.1 rfl
        · rcases List.mem_cons.mp h with h | h
          · exact absurd h (by decide)
          · exact (quotePlus_facts _ _ h).2.1 rfl
    unfold parseQsl
    rw [hsplit]
    apply filterMap_map_some
    intro kv hkv
    have hbs := hb kv hkv
    have hne : ¬((quotePlus kv.1 ++ 61 :: quotePlus kv.2).isEmpty = true) := by simp
    rw [if_neg hne]
    rw [splitFirst_append 61 _ _ (fun hc => (quotePlus_facts _ _ hc).2.2.1 rfl)]
    simp only []
    rw [unquote_quotePlus _ hbs.1, unquote_quotePlus _ hbs.2]

/-- The keys surviving the None-filter form a sublist of the mapping's
keys. -/
lemma filtered_keys_sublist (ps : QParams) :
    ((ps.filterMap (fun kv => kv.2.map (fun v => (kv.1, v)))).map Prod.fst).Sublist
      (ps.map Prod.fst) := by
  induction ps with
  | nil => simp
  | cons kv t ih =>
    rcases kv with ⟨k, vo⟩
    cases vo with
    | none => exact ih.cons k
    | some v => exact ih.cons₂ k

/-- The byte-bound predicate transfers to every surviving pair. -/
lemma bytesOK_spec (ps : QParams) (h : qparamsBytesOK ps = true) :
    ∀ kv ∈ ps.filterMap (fun kv => kv.2.map (fun v => (kv.1, v))),
      (∀ b ∈ kv.1, b < 256) ∧ (∀ b ∈ kv.2, b < 256) := by
  intro kv hkv
  rw [List.mem_filterMap] at hkv
  obtain ⟨kv0, hkv0, he⟩ := hkv
  rcases kv0 with ⟨k, vo⟩
  cases vo with
  | none => simp at he
  | some v =>
    simp at he
    unfold qparamsBytesOK at h
    rw [List.all_eq_true] at h
    have hx := h (k, some v) hkv0
    simp at hx
    subst he
    exact ⟨fun b hb => hx.1 b hb, fun b hb => hx.2 b hb⟩

/-- The encoded query holds no hash byte (35). -/
lemma encoded_no_hash (F : List (ByteStr × ByteStr)) :
    35 ∉ intercalateSep 38 (F.map (fun kv => quotePlus kv.1 ++ 61 :: quotePlus kv.2)) := by
  intro hc
  rcases mem_intercalateSep 38 _ _ hc with h | ⟨xs, hxs, hcx⟩
  · exact absurd h (by decide)
  · rw [List.mem_map] at hxs
    obtain ⟨kv, hkv, rfl⟩ := hxs
    rcases List.mem_append.mp hcx with h | h
    · exact (quotePlus_facts _ _ h).1 rfl
    · rcases List.mem_cons.mp h with h | h
      · exact absurd h (by decide)
      · exact (quotePlus_facts _ _ h).1 rfl

/-- The query component of a URL built from a query-free base is exactly
the urlencoded join of the mapping's non-None pairs. -/
lemma build_url_query (base : ByteStr) (ps : QParams)
    (hbase : (urlparseLite base).query = [])
    (hndF : ((ps.filterMap (fun kv => kv.2.map (fun v => (kv.1, v)))).map
      Prod.fst).Nodup) :
    (urlparseLite (build_url base Option.none (some ps))).query =
      intercalateSep 38 ((ps.filterMap (fun kv => kv.2.map (fun v => (kv.1, v)))).map
        (fun kv => quotePlus kv.1 ++ 61 :: quotePlus kv.2)) := by
  have hhead := urlparse_head_facts base
  by_cases hpe : ps.isEmpty = true
  · obtain rfl : ps = [] := List.isEmpty_iff.mp hpe
    simp only [build_url]
    rw [hbase]
    simp only [List.isEmpty_nil, if_true]
    rw [urlparse_urlunparse _ _ _ hhead.1 hhead.2 (by simp)]
    simp [intercalateSep]
  · simp only [build_url, encode_parameters]
    rw [pyDict_eq_self _ hndF]
    rw [hbase]
    rw [if_neg hpe]
    simp only [List.isEmpty_nil, if_true, Option.getD_some]
    rw [urlparse_urlunparse _ _ _ hhead.1 hhead.2 (encoded_no_hash _)]

/-- C7 amended: for every base URL whose query component is EMPTY (as all
the library's endpoint URLs are) and every genuine parameter mapping
(distinct keys, byte-valued strings), building the URL and re-parsing its
query string yields back exactly the key/value pairs with non-None
values, in order; and a None-valued parameter's key never appears among
the re-parsed keys.  For a base URL that already carries a query this
fails: the base's own pairs are prepended (see the counterexample). -/
theorem C7_roundtrip_amended (base : ByteStr) (ps : QParams)
    (hbase : (urlparseLite base).query = [])
    (hnd : (ps.map Prod.fst).Nodup)
    (hok : qparamsBytesOK ps = true) :
    parseQsl ((urlparseLite (build_url base Option.none (some ps))).query)
      = ps.filterMap (fun kv => kv.2.map (fun v => (kv.1, v)))
    ∧ ∀ k, (k, (Option.none : Option ByteStr)) ∈ ps →
        k ∉ (parseQsl ((urlparseLite (build_url base Option.none
          (some ps))).query)).map Prod.fst := by
  have hndF : ((ps.filterMap (fun kv => kv.2.map (fun v => (kv.1, v)))).map
      Prod.fst).Nodup := (filtered_keys_sublist ps).nodup hnd
  have hbF := bytesOK_spec ps hok
  have hmain : parseQsl ((urlparseLite (build_url base Option.none (some ps))).query)
      = ps.filterMap (fun kv => kv.2.map (fun v => (kv.1, v))) := by
    rw [build_url_query base ps hbase hndF]
    exact parse_encoded _ hbF
  refine ⟨hmain, ?_⟩
  intro k hk hmem
  rw [hmain, List.mem_map] at hmem
  obtain ⟨kv, hkv, hfst⟩ := hmem
  rw [List.mem_filterMap] at hkv
  obtain ⟨kv0, hkv0, hsome⟩ := hkv
  rcases kv0 with ⟨k0, vo⟩
  cases vo with
  | none => simp at hsome
  | some v =>
    simp at hsome
    have hfst0 : k0 = k := by
      rw [← hfst, ← hsome]
    have heq : ((k, (Option.none : Option ByteStr)) : ByteStr × Option ByteStr)
        = (k0, some v) :=
      List.inj_on_of_nodup_map hnd hk hkv0 (by simp [hfst0])
    simp at heq

/-- C7 counterexample: with the base URL http://h/p?a=b (whose query is
not empty) and the mapping holding only c = d, re-parsing the built URL's
query string yields the pairs a = b AND c = d, not the mapping's single
pair - the claim fails for base URLs that already carry a query. -/
theorem C7_counterexample :
    parseQsl ((urlparseLite (build_url (strBytes "http://h/p?a=b") Option.none
        (some [(strBytes "c", some (strBytes "d"))]))).query)
      = [(strBytes "a", strBytes "b"), (strBytes "c", strBytes "d")]
    ∧ parseQsl ((urlparseLite (build_url (strBytes "http://h/p?a=b") Option.none
        (some [(strBytes "c", some (strBytes "d"))]))).query)
      ≠ [(strBytes "c", strBytes "d")] :=
  ⟨by decide, by decide⟩

/-- Witness for C7_roundtrip_amended on a query-free endpoint URL with a
mapping holding two string values (one with a space) and one None. -/
theorem C7_witness :
    (urlparseLite c7Base).query = []
    ∧ ((c7Params.map Prod.fst).Nodup)
    ∧ qparamsBytesOK c7Params = true
    ∧ parseQsl ((urlparseLite (build_url c7Base Option.none (some c7Params))).query)
      = c7Params.filterMap (fun kv => kv.2.map (fun v => (kv.1, v))) :=
  ⟨by decide, by decide, by decide,
    (C7_roundtrip_amended c7Base c7Params (by decide) (by decide) (by decide)).1⟩

end Zillow
